import Mathlib

/-!
Verification development for the Charta compiler front end
(repository `charta-compiler`, files `src/ast.rs`, `src/parser.rs`,
`src/resolver.rs`, `src/emitter.rs`).

The Rust source is shallowly embedded: each Rust item is translated to a
Lean definition of the same name (module paths become namespaces).  Rust
`Vec` becomes `List`, `Option` becomes `Option`, `Result<T, CompileError>`
becomes `Except CompileError T`, and `HashMap` becomes an association list
(the resolver only uses `contains_key` and `insert`, so no iteration-order
behaviour is lost).  Rust `f64` values are never computed with by this
front end (they are carried from the lexer slice to the IR), so they are
modelled by the source literal that produced them.
-/

deriving instance DecidableEq for Except

namespace Charta

/-- Models Rust `f64` by the decimal source literal it was parsed from.
The front end never performs arithmetic on these values; it only copies
them from the token to the AST to the IR.  (Distinct literals such as
`1.0` and `1.00` denote the same `f64`; no claim depends on that
identification.) -/
structure F64 where
  lit : String
deriving DecidableEq, Repr

namespace ast

/-- `ast::Intent` from src/ast.rs. -/
structure Intent where
  goal : Option String
deriving DecidableEq, Repr

/-- `ast::DataPrivacy` from src/ast.rs. -/
structure DataPrivacy where
  jurisdiction : Option String
  pii_handling : Option String
deriving DecidableEq, Repr

/-- `ast::Quality` from src/ast.rs (fields are `Option<f64>` in Rust). -/
structure Quality where
  min_precision : Option F64
  min_recall : Option F64
deriving DecidableEq, Repr

/-- `ast::Cost` from src/ast.rs. -/
structure Cost where
  max_cost_per_submission : Option String
deriving DecidableEq, Repr

/-- `ast::Constraints` from src/ast.rs. -/
structure Constraints where
  data_privacy : Option DataPrivacy
  quality : Option Quality
  cost : Option Cost
deriving DecidableEq, Repr

/-- `ast::SignalDecl` from src/ast.rs. -/
structure SignalDecl where
  name : String
  parameters : List String
  type_ : Option String
deriving DecidableEq, Repr

/-- `ast::CoilDecl` from src/ast.rs. -/
structure CoilDecl where
  name : String
  parameters : List String
  latching : Option Bool
  critical : Option Bool
deriving DecidableEq, Repr

/-- `ast::ContactType` from src/ast.rs. -/
inductive ContactType where
  | NO
  | NC
deriving DecidableEq, Repr

/-- `ast::Expr` from src/ast.rs. -/
inductive Expr where
  | String (s : String)
  | Number (n : F64)
  | Boolean (b : Bool)
  | Identifier (id : String)
deriving DecidableEq, Repr

/-- `ast::GuardExpr` from src/ast.rs. -/
inductive GuardExpr where
  | Contact (name : String) (contact_type : ContactType) (arguments : List Expr)
  | And (left : GuardExpr) (right : GuardExpr)
  | Or (left : GuardExpr) (right : GuardExpr)
  | Not (expr : GuardExpr)
deriving DecidableEq, Repr

/-- `ast::ActionType` from src/ast.rs. -/
inductive ActionType where
  | Energise
  | DeEnergise
  | Escalate
  | Require
deriving DecidableEq, Repr

/-- `ast::Action` from src/ast.rs. -/
structure Action where
  action_type : ActionType
  coil : String
  arguments : List Expr
deriving DecidableEq, Repr

/-- `ast::RungDecl` from src/ast.rs. -/
structure RungDecl where
  name : String
  guard : GuardExpr
  actions : List Action
deriving DecidableEq, Repr

/-- `ast::PortDecl` from src/ast.rs. -/
structure PortDecl where
  name : String
  type_ : String
deriving DecidableEq, Repr

/-- `ast::InternalDecl` from src/ast.rs. -/
structure InternalDecl where
  name : String
  type_ : String
deriving DecidableEq, Repr

/-- `ast::BlockDecl` from src/ast.rs. -/
structure BlockDecl where
  name : String
  inputs : List PortDecl
  outputs : List PortDecl
  internals : List InternalDecl
  implementation : Option String
  effect : Option String
deriving DecidableEq, Repr

/-- `ast::Wire` from src/ast.rs. -/
structure Wire where
  source : String
  target : String
deriving DecidableEq, Repr

/-- `ast::Output` from src/ast.rs. -/
structure Output where
  name : String
  source : String
deriving DecidableEq, Repr

/-- `ast::NetworkDecl` from src/ast.rs. -/
structure NetworkDecl where
  name : String
  wires : List Wire
  outputs : List Output
deriving DecidableEq, Repr

/-- `ast::Module` from src/ast.rs. -/
structure Module where
  name : String
  context : Option String
  intent : Option Intent
  constraints : Option Constraints
  signals : List SignalDecl
  coils : List CoilDecl
  rungs : List RungDecl
  blocks : List BlockDecl
  networks : List NetworkDecl
deriving DecidableEq, Repr

end ast

/-- `error::CompileError` from src/error.rs (the `Io` variant carries a
`std::io::Error`, which never arises inside the four pipeline stages and
is therefore modelled with a plain message string). -/
inductive CompileError where
  | Parse (line : Nat) (column : Nat) (message : String)
  | NameResolution (message : String)
  | Type (message : String)
  | Emission (message : String)
  | Io (message : String)
deriving DecidableEq, Repr

/-- `parser::Token` from src/parser.rs (the `logos`-derived token enum).
`String` carries the decoded literal, `Number` the numeric literal (see
`F64`), `Identifier` the matched name. -/
inductive Token where
  | Module
  | Signal
  | Coil
  | Rung
  | Block
  | Network
  | When
  | Then
  | Else
  | Energise
  | DeEnergise
  | Escalate
  | Require
  | NO
  | NC
  | And
  | Or
  | Not
  | Inputs
  | Outputs
  | Internals
  | Implementation
  | Effect
  | Context
  | Intent
  | Constraints
  | Wires
  | String (s : String)
  | Number (n : F64)
  | True
  | False
  | Identifier (s : String)
  | Colon
  | Comma
  | LParen
  | RParen
  | LBracket
  | RBracket
  | LBrace
  | RBrace
  | Equals
  | Arrow
  | Minus
deriving DecidableEq, Repr

/-! ## Lexer

`Parser::new` in src/parser.rs drives a `logos` lexer over the source and
collects `(token, line, column)` triples.  The embedding below reproduces
the logos behaviour for this token set: maximal munch over all patterns,
with a fixed token (keyword/punctuation) beating the identifier regex on
equal length; the skip patterns `[ \t\r\n]+` and `//[^\n]*` are consumed
without producing tokens.  Position bookkeeping mirrors `Parser::new`
exactly: line/column advance only for produced tokens (skipped whitespace
does not move them — the spec calls the positions approximate), and a
token containing a newline bumps the line count and resets the column. -/

/-- Whitespace characters of the logos skip pattern `[ \t\r\n]+`. -/
def isWsChar (c : Char) : Bool :=
  c == ' ' || c == '\t' || c == '\r' || c == '\n'

/-- First character of the identifier regex `[a-zA-Z_][a-zA-Z0-9_]*`. -/
def isIdentStartChar (c : Char) : Bool := c.isAlpha || c == '_'

/-- Continuation character of the identifier regex. -/
def isIdentContChar (c : Char) : Bool := c.isAlphanum || c == '_'

/-- Length of the identifier-regex match at the head of `cs` (0 if none). -/
def identLen (cs : List Char) : Nat :=
  match cs with
  | [] => 0
  | c :: rest => if isIdentStartChar c then 1 + (rest.takeWhile isIdentContChar).length else 0

/-- Length of the number-regex match `[0-9]+(\.[0-9]+)?` at the head of
`cs` (0 if none). -/
def numberLen (cs : List Char) : Nat :=
  let ds := cs.takeWhile Char.isDigit
  if ds.isEmpty then 0
  else
    match cs.drop ds.length with
    | '.' :: rest =>
      let fs := rest.takeWhile Char.isDigit
      if fs.isEmpty then ds.length else ds.length + 1 + fs.length
    | _ => ds.length

/-- Match length (content plus closing quote) of the string-literal regex
`"([^"\\]|\\")*"` after its opening quote, when it matches. -/
def strTailLen : List Char → Option Nat
  | [] => none
  | '"' :: _ => some 1
  | '\\' :: '"' :: cs => (strTailLen cs).map (· + 2)
  | '\\' :: _ => none
  | _ :: cs => (strTailLen cs).map (· + 1)

/-- Leftmost, non-overlapping replacement of the two-character pattern
`[a, b]` by the single character `c`; models one `str::replace` pass of
the string-literal callback. -/
def replacePair (a b c : Char) : List Char → List Char
  | x :: y :: cs =>
    if x == a && y == b then c :: replacePair a b c cs
    else x :: replacePair a b c (y :: cs)
  | cs => cs

/-- The string-literal callback: strip the surrounding quotes, then
`.replace("\\\"", "\"").replace("\\\\", "\\")`. -/
def decodeString (slice : List Char) : String :=
  String.mk (replacePair '\\' '\\' '\\' (replacePair '\\' '"' '"' ((slice.drop 1).dropLast)))

/-- The fixed `#token` strings of the lexer, keywords and punctuation. -/
def fixedTokens : List (List Char × Token) := [
  ("module".toList, Token.Module),
  ("signal".toList, Token.Signal),
  ("coil".toList, Token.Coil),
  ("rung".toList, Token.Rung),
  ("block".toList, Token.Block),
  ("network".toList, Token.Network),
  ("when".toList, Token.When),
  ("then".toList, Token.Then),
  ("else".toList, Token.Else),
  ("energise".toList, Token.Energise),
  ("de_energise".toList, Token.DeEnergise),
  ("escalate".toList, Token.Escalate),
  ("require".toList, Token.Require),
  ("NO".toList, Token.NO),
  ("NC".toList, Token.NC),
  ("AND".toList, Token.And),
  ("OR".toList, Token.Or),
  ("NOT".toList, Token.Not),
  ("inputs".toList, Token.Inputs),
  ("outputs".toList, Token.Outputs),
  ("internals".toList, Token.Internals),
  ("implementation".toList, Token.Implementation),
  ("effect".toList, Token.Effect),
  ("context".toList, Token.Context),
  ("intent".toList, Token.Intent),
  ("constraints".toList, Token.Constraints),
  ("wires".toList, Token.Wires),
  ("true".toList, Token.True),
  ("false".toList, Token.False),
  (":".toList, Token.Colon),
  (",".toList, Token.Comma),
  ("(".toList, Token.LParen),
  (")".toList, Token.RParen),
  ("[".toList, Token.LBracket),
  ("]".toList, Token.RBracket),
  ("\x7b".toList, Token.LBrace),
  ("\x7d".toList, Token.RBrace),
  ("=".toList, Token.Equals),
  ("->".toList, Token.Arrow),
  ("-".toList, Token.Minus)]

/-- Longest fixed token matching a head of `cs` (fixed strings are
pairwise distinct, so the longest is unique). -/
def bestFixed (cs : List Char) : Option (Nat × Token) :=
  fixedTokens.foldl
    (fun best p =>
      if p.1.isPrefixOf cs then
        match best with
        | none => some (p.1.length, p.2)
        | some b => if p.1.length > b.1 then some (p.1.length, p.2) else best
      else best)
    none

/-- Newline count of a slice, for the position update of `Parser::new`. -/
def countNewlines (cs : List Char) : Nat := (cs.filter (fun c => c == '\n')).length

/-- One lexing loop: each step consumes at least one character, so fuel
equal to the input length suffices (the fuel-0 fallthrough is
unreachable from `lex`). -/
def lexAux : Nat → List Char → Nat → Nat → List (Token × Nat × Nat) → List (Token × Nat × Nat)
  | 0, _, _, _, acc => acc.reverse
  | fuel + 1, cs, line, col, acc =>
    match cs with
    | [] => acc.reverse
    | c :: rest =>
      if isWsChar c then
        lexAux fuel (cs.dropWhile isWsChar) line col acc
      else if c == '/' && (match rest with | '/' :: _ => true | _ => false) then
        lexAux fuel (cs.dropWhile (fun d => !(d == '\n'))) line col acc
      else
        let sLen := if c == '"' then (match strTailLen rest with | some k => 1 + k | none => 0) else 0
        let nLen := numberLen cs
        let iLen := identLen cs
        let choice : Option (Token × Nat) :=
          if sLen > 0 then some (Token.String (decodeString (cs.take sLen)), sLen)
          else if nLen > 0 then some (Token.Number ⟨String.mk (cs.take nLen)⟩, nLen)
          else
            match bestFixed cs with
            | some (flen, ftok) =>
              if iLen > flen then some (Token.Identifier (String.mk (cs.take iLen)), iLen)
              else some (ftok, flen)
            | none =>
              if iLen > 0 then some (Token.Identifier (String.mk (cs.take iLen)), iLen)
              else none
        match choice with
        | none =>
          -- the `Err(_)` arm of `Parser::new`: skip one character
          lexAux fuel rest line (col + 1) acc
        | some (tok, len) =>
          let slice := cs.take len
          if slice.contains '\n' then
            lexAux fuel (cs.drop len) (line + countNewlines slice) 1
              ((tok, line + countNewlines slice, col) :: acc)
          else
            lexAux fuel (cs.drop len) line (col + len) ((tok, line, col) :: acc)

/-- The token collection of `Parser::new`: tokens with the approximate
`(line, column)` positions it records. -/
def lex (source : String) : List (Token × Nat × Nat) :=
  lexAux source.toList.length source.toList 1 1 []

/-! ## Parser (struct `Parser` of src/parser.rs) -/

/-- `parser::Parser`: the token buffer and the cursor. -/
structure Parser where
  tokens : List (Token × Nat × Nat)
  pos : Nat
deriving DecidableEq, Repr

/-- `Parser::new`: lex the source and start at position 0. -/
def Parser.new (source : String) : Parser := ⟨lex source, 0⟩

/-- `Parser::peek`. -/
def Parser.peek (p : Parser) : Option Token :=
  (p.tokens.get? p.pos).map (fun t => t.1)

/-- `Parser::next`: the consumed token (if any) and the advanced parser. -/
def Parser.next (p : Parser) : Option Token × Parser :=
  match p.tokens.get? p.pos with
  | some t => (some t.1, ⟨p.tokens, p.pos + 1⟩)
  | none => (none, p)

/-- The parser advanced by one consumed token (`self.next()` with the
token discarded). -/
def Parser.bump (p : Parser) : Parser := p.next.2

/-- The `{:?}` (Debug) rendering of a token as it appears in `expect`
error messages.  Rust escapes special characters inside `Identifier` and
`String` payloads and prints `Number` as an `f64` (for instance `5.0`);
neither refinement is needed by the sources below, which keep payloads
free of special characters and never place numbers in error paths. -/
def reprToken : Token → String
  | Token.Module => "Module"
  | Token.Signal => "Signal"
  | Token.Coil => "Coil"
  | Token.Rung => "Rung"
  | Token.Block => "Block"
  | Token.Network => "Network"
  | Token.When => "When"
  | Token.Then => "Then"
  | Token.Else => "Else"
  | Token.Energise => "Energise"
  | Token.DeEnergise => "DeEnergise"
  | Token.Escalate => "Escalate"
  | Token.Require => "Require"
  | Token.NO => "NO"
  | Token.NC => "NC"
  | Token.And => "And"
  | Token.Or => "Or"
  | Token.Not => "Not"
  | Token.Inputs => "Inputs"
  | Token.Outputs => "Outputs"
  | Token.Internals => "Internals"
  | Token.Implementation => "Implementation"
  | Token.Effect => "Effect"
  | Token.Context => "Context"
  | Token.Intent => "Intent"
  | Token.Constraints => "Constraints"
  | Token.Wires => "Wires"
  | Token.String s => "String(\"" ++ s ++ "\")"
  | Token.Number n => "Number(" ++ n.lit ++ ")"
  | Token.True => "True"
  | Token.False => "False"
  | Token.Identifier s => "Identifier(\"" ++ s ++ "\")"
  | Token.Colon => "Colon"
  | Token.Comma => "Comma"
  | Token.LParen => "LParen"
  | Token.RParen => "RParen"
  | Token.LBracket => "LBracket"
  | Token.RBracket => "RBracket"
  | Token.LBrace => "LBrace"
  | Token.RBrace => "RBrace"
  | Token.Equals => "Equals"
  | Token.Arrow => "Arrow"
  | Token.Minus => "Minus"

/-- The token-compatibility table of `Parser::expect` (src/parser.rs,
lines 161-185), verbatim: only the listed discriminant pairs match.  In
particular no arm exists for `Block` or `Network`, so `expect` can never
succeed on those tokens. -/
def tokenMatches : Token → Token → Bool
  | Token.Module, Token.Module => true
  | Token.Signal, Token.Signal => true
  | Token.Coil, Token.Coil => true
  | Token.Rung, Token.Rung => true
  | Token.When, Token.When => true
  | Token.Then, Token.Then => true
  | Token.Energise, Token.Energise => true
  | Token.DeEnergise, Token.DeEnergise => true
  | Token.NO, Token.NO => true
  | Token.NC, Token.NC => true
  | Token.And, Token.And => true
  | Token.Or, Token.Or => true
  | Token.Not, Token.Not => true
  | Token.Colon, Token.Colon => true
  | Token.Comma, Token.Comma => true
  | Token.LParen, Token.LParen => true
  | Token.RParen, Token.RParen => true
  | Token.Identifier _, Token.Identifier _ => true
  | Token.String _, Token.String _ => true
  | Token.Number _, Token.Number _ => true
  | Token.True, Token.True => true
  | Token.False, Token.False => true
  | _, _ => false

/-- `Parser::expect`: consume one token and require it to be compatible
with `expected`; on mismatch the error carries the consumed token's
recorded position, on end of input the last token's position (or the
`(1, 1)` default). -/
def Parser.expect (p : Parser) (expected : Token) : Except CompileError (Token × Parser) :=
  match p.tokens.get? p.pos with
  | some (tok, l, c) =>
    if tokenMatches tok expected then Except.ok (tok, ⟨p.tokens, p.pos + 1⟩)
    else Except.error (CompileError.Parse l c
      ("Expected " ++ reprToken expected ++ ", found " ++ reprToken tok))
  | none =>
    match p.tokens.getLast? with
    | some (_, l, c) => Except.error (CompileError.Parse l c
        ("Expected " ++ reprToken expected ++ ", found end of file"))
    | none => Except.error (CompileError.Parse 1 1
        ("Expected " ++ reprToken expected ++ ", found end of file"))

/-- `Parser::parse_expr`. -/
def Parser.parse_expr (p : Parser) : Except CompileError (ast.Expr × Parser) :=
  match p.next with
  | (some (Token.String s), p') => Except.ok (ast.Expr.String s, p')
  | (some (Token.Number n), p') => Except.ok (ast.Expr.Number n, p')
  | (some Token.True, p') => Except.ok (ast.Expr.Boolean true, p')
  | (some Token.False, p') => Except.ok (ast.Expr.Boolean false, p')
  | (some (Token.Identifier name), p') => Except.ok (ast.Expr.Identifier name, p')
  | _ => Except.error (CompileError.Parse 1 1 "Expected expression")

/-- The argument-list loop shared by `parse_guard_primary` and the
`energise` arm of `parse_actions`:
`while peek != RParen { args.push(parse_expr()?); if peek == Comma then next else break }`.
Every continuing iteration consumes at least one token, so fuel bounded
by the remaining token count suffices. -/
def parseArgsLoop : Nat → List ast.Expr → Parser → Except CompileError (List ast.Expr × Parser)
  | 0, _, _ => Except.error (CompileError.Parse 0 0 "fuel exhausted")
  | fuel + 1, args, p =>
    if p.peek = some Token.RParen then Except.ok (args, p)
    else
      match p.parse_expr with
      | Except.error e => Except.error e
      | Except.ok (e, p1) =>
        if p1.peek = some Token.Comma then parseArgsLoop fuel (args ++ [e]) p1.bump
        else Except.ok (args ++ [e], p1)

/-- The parameter-list loop shared by `parse_signal` and `parse_coil`:
`while peek != RParen { if let Identifier(x) = next() { push x }; if peek == Comma then next else break }`.
A token that is not an identifier is consumed and silently dropped. -/
def parseParamsLoop : Nat → List String → Parser → Except CompileError (List String × Parser)
  | 0, _, _ => Except.error (CompileError.Parse 0 0 "fuel exhausted")
  | fuel + 1, params, p =>
    if p.peek = some Token.RParen then Except.ok (params, p)
    else
      match p.next with
      | (tk, p1) =>
        let params' := match tk with
          | some (Token.Identifier x) => params ++ [x]
          | _ => params
        if p1.peek = some Token.Comma then parseParamsLoop fuel params' p1.bump
        else Except.ok (params', p1)

/-- Fuel that bounds every loop and recursion of the parser on a given
state: each production consumes at least one token before recursing, and
at most four parser functions are entered between consecutive token
consumptions. -/
def parserFuel (p : Parser) : Nat := 4 * p.tokens.length + 16

mutual

/-- `Parser::parse_guard_or` (the `parse_guard` entry delegates here). -/
def parseGuardOr : Nat → Parser → Except CompileError (ast.GuardExpr × Parser)
  | 0, _ => Except.error (CompileError.Parse 0 0 "fuel exhausted")
  | fuel + 1, p =>
    match parseGuardAnd fuel p with
    | Except.error e => Except.error e
    | Except.ok (left, p1) => parseGuardOrLoop fuel left p1

/-- The `while peek == OR` fold of `parse_guard_or`. -/
def parseGuardOrLoop : Nat → ast.GuardExpr → Parser → Except CompileError (ast.GuardExpr × Parser)
  | 0, _, _ => Except.error (CompileError.Parse 0 0 "fuel exhausted")
  | fuel + 1, left, p =>
    if p.peek = some Token.Or then
      match parseGuardAnd fuel p.bump with
      | Except.error e => Except.error e
      | Except.ok (right, p1) => parseGuardOrLoop fuel (ast.GuardExpr.Or left right) p1
    else Except.ok (left, p)

/-- `Parser::parse_guard_and`. -/
def parseGuardAnd : Nat → Parser → Except CompileError (ast.GuardExpr × Parser)
  | 0, _ => Except.error (CompileError.Parse 0 0 "fuel exhausted")
  | fuel + 1, p =>
    match parseGuardNot fuel p with
    | Except.error e => Except.error e
    | Except.ok (left, p1) => parseGuardAndLoop fuel left p1

/-- The `while peek == AND` fold of `parse_guard_and`. -/
def parseGuardAndLoop : Nat → ast.GuardExpr → Parser → Except CompileError (ast.GuardExpr × Parser)
  | 0, _, _ => Except.error (CompileError.Parse 0 0 "fuel exhausted")
  | fuel + 1, left, p =>
    if p.peek = some Token.And then
      match parseGuardNot fuel p.bump with
      | Except.error e => Except.error e
      | Except.ok (right, p1) => parseGuardAndLoop fuel (ast.GuardExpr.And left right) p1
    else Except.ok (left, p)

/-- `Parser::parse_guard_not`: `NOT` binds to exactly one primary. -/
def parseGuardNot : Nat → Parser → Except CompileError (ast.GuardExpr × Parser)
  | 0, _ => Except.error (CompileError.Parse 0 0 "fuel exhausted")
  | fuel + 1, p =>
    if p.peek = some Token.Not then
      match parseGuardPrimary fuel p.bump with
      | Except.error e => Except.error e
      | Except.ok (e, p1) => Except.ok (ast.GuardExpr.Not e, p1)
    else parseGuardPrimary fuel p

/-- `Parser::parse_guard_primary`: a parenthesized guard, an explicit
`NO`/`NC` contact with an optional argument list, or a bare identifier
(the bare branch builds a `NO` contact and parses no argument list). -/
def parseGuardPrimary : Nat → Parser → Except CompileError (ast.GuardExpr × Parser)
  | 0, _ => Except.error (CompileError.Parse 0 0 "fuel exhausted")
  | fuel + 1, p =>
    if p.peek = some Token.LParen then
      match parseGuardOr fuel p.bump with
      | Except.error e => Except.error e
      | Except.ok (e, p1) =>
        match p1.expect Token.RParen with
        | Except.error er => Except.error er
        | Except.ok (_, p2) => Except.ok (e, p2)
    else if p.peek = some Token.NO || p.peek = some Token.NC then
      let ct := if p.peek = some Token.NO then ast.ContactType.NO else ast.ContactType.NC
      let p0 := p.bump
      match p0.next with
      | (some (Token.Identifier name), p1) =>
        if p1.peek = some Token.LParen then
          match parseArgsLoop fuel [] p1.bump with
          | Except.error e => Except.error e
          | Except.ok (args, p2) =>
            match p2.expect Token.RParen with
            | Except.error er => Except.error er
            | Except.ok (_, p3) => Except.ok (ast.GuardExpr.Contact name ct args, p3)
        else Except.ok (ast.GuardExpr.Contact name ct [], p1)
      | _ => Except.error (CompileError.Parse 1 1 "Expected signal/coil name after NO/NC")
    else
      match p.next with
      | (some (Token.Identifier name), p1) =>
        Except.ok (ast.GuardExpr.Contact name ast.ContactType.NO [], p1)
      | _ => Except.error (CompileError.Parse 1 1 "Expected contact or identifier")

end

/-- `Parser::parse_guard`. -/
def Parser.parse_guard (p : Parser) : Except CompileError (ast.GuardExpr × Parser) :=
  parseGuardOr (parserFuel p) p

/-- The action loop of `Parser::parse_actions`. -/
def parseActionsLoop : Nat → List ast.Action → Parser → Except CompileError (List ast.Action × Parser)
  | 0, _, _ => Except.error (CompileError.Parse 0 0 "fuel exhausted")
  | fuel + 1, actions, p =>
    match p.peek with
    | some Token.Energise =>
      (match (p.bump).next with
       | (some (Token.Identifier coil), p1) =>
         if p1.peek = some Token.LParen then
           match parseArgsLoop fuel [] p1.bump with
           | Except.error e => Except.error e
           | Except.ok (args, p2) =>
             match p2.expect Token.RParen with
             | Except.error er => Except.error er
             | Except.ok (_, p3) =>
               parseActionsLoop fuel
                 (actions ++ [⟨ast.ActionType.Energise, coil, args⟩]) p3
         else parseActionsLoop fuel (actions ++ [⟨ast.ActionType.Energise, coil, []⟩]) p1
       | _ => Except.error (CompileError.Parse 1 1 "Expected coil name"))
    | some Token.DeEnergise =>
      (match (p.bump).next with
       | (some (Token.Identifier coil), p1) =>
         parseActionsLoop fuel (actions ++ [⟨ast.ActionType.DeEnergise, coil, []⟩]) p1
       | _ => Except.error (CompileError.Parse 1 1 "Expected coil name"))
    | _ => Except.ok (actions, p)

/-- `Parser::parse_actions`. -/
def Parser.parse_actions (p : Parser) : Except CompileError (List ast.Action × Parser) :=
  parseActionsLoop (parserFuel p) [] p

/-- `Parser::parse_signal`. -/
def Parser.parse_signal (p : Parser) : Except CompileError (ast.SignalDecl × Parser) :=
  match p.expect Token.Signal with
  | Except.error e => Except.error e
  | Except.ok (_, p0) =>
    match p0.next with
    | (some (Token.Identifier name), p1) =>
      (match
        (if p1.peek = some Token.LParen then
          match parseParamsLoop (parserFuel p1) [] p1.bump with
          | Except.error e => Except.error e
          | Except.ok (params, p2) =>
            match p2.expect Token.RParen with
            | Except.error er => Except.error er
            | Except.ok (_, p3) => Except.ok (params, p3)
         else Except.ok ([], p1)) with
      | Except.error e => Except.error e
      | Except.ok (params, p4) =>
        if p4.peek = some Token.Colon then
          match (p4.bump).next with
          | (some (Token.Identifier t), p5) => Except.ok (⟨name, params, some t⟩, p5)
          | (_, p5) => Except.ok (⟨name, params, none⟩, p5)
        else Except.ok (⟨name, params, none⟩, p4))
    | _ => Except.error (CompileError.Parse 1 1 "Expected signal name")

/-- The modifier loop of `parse_coil`: `latching` and `critical`
identifiers set the corresponding flags. -/
def parseCoilMods : Nat → Option Bool → Option Bool → Parser →
    (Option Bool × Option Bool × Parser)
  | 0, latching, critical, p => (latching, critical, p)
  | fuel + 1, latching, critical, p =>
    match p.peek with
    | some (Token.Identifier s) =>
      if s = "latching" then parseCoilMods fuel (some true) critical p.bump
      else if s = "critical" then parseCoilMods fuel latching (some true) p.bump
      else (latching, critical, p)
    | _ => (latching, critical, p)

/-- `Parser::parse_coil`. -/
def Parser.parse_coil (p : Parser) : Except CompileError (ast.CoilDecl × Parser) :=
  match p.expect Token.Coil with
  | Except.error e => Except.error e
  | Except.ok (_, p0) =>
    match p0.next with
    | (some (Token.Identifier name), p1) =>
      (match
        (if p1.peek = some Token.LParen then
          match parseParamsLoop (parserFuel p1) [] p1.bump with
          | Except.error e => Except.error e
          | Except.ok (params, p2) =>
            match p2.expect Token.RParen with
            | Except.error er => Except.error er
            | Except.ok (_, p3) => Except.ok (params, p3)
         else Except.ok ([], p1)) with
      | Except.error e => Except.error e
      | Except.ok (params, p4) =>
        match parseCoilMods (parserFuel p4) none none p4 with
        | (latching, critical, p5) => Except.ok (⟨name, params, latching, critical⟩, p5))
    | _ => Except.error (CompileError.Parse 1 1 "Expected coil name")

/-- `Parser::parse_rung`. -/
def Parser.parse_rung (p : Parser) : Except CompileError (ast.RungDecl × Parser) :=
  match p.expect Token.Rung with
  | Except.error e => Except.error e
  | Except.ok (_, p0) =>
    match p0.next with
    | (some (Token.Identifier name), p1) =>
      (match p1.expect Token.Colon with
       | Except.error e => Except.error e
       | Except.ok (_, p2) =>
         match p2.expect Token.When with
         | Except.error e => Except.error e
         | Except.ok (_, p3) =>
           match p3.parse_guard with
           | Except.error e => Except.error e
           | Except.ok (guard, p4) =>
             match p4.expect Token.Then with
             | Except.error e => Except.error e
             | Except.ok (_, p5) =>
               match p5.parse_actions with
               | Except.error e => Except.error e
               | Except.ok (actions, p6) => Except.ok (⟨name, guard, actions⟩, p6))
    | _ => Except.error (CompileError.Parse 1 1 "Expected rung name")

/-- `Parser::parse_block`: the header `block <identifier> :` followed by
no body parsing (`// Simplified block parsing`), returning an
empty-bodied declaration.  Note that the `expect(Token::Block)` call can
never succeed, because `tokenMatches` has no `Block` arm. -/
def Parser.parse_block (p : Parser) : Except CompileError (ast.BlockDecl × Parser) :=
  match p.expect Token.Block with
  | Except.error e => Except.error e
  | Except.ok (_, p0) =>
    match p0.next with
    | (some (Token.Identifier name), p1) =>
      (match p1.expect Token.Colon with
       | Except.error e => Except.error e
       | Except.ok (_, p2) => Except.ok (⟨name, [], [], [], none, none⟩, p2))
    | _ => Except.error (CompileError.Parse 1 1 "Expected block name")

/-- `Parser::parse_network`: the header `network <identifier> :` with no
body parsing, returning an empty-bodied declaration.  As with
`parse_block`, the `expect(Token::Network)` call can never succeed. -/
def Parser.parse_network (p : Parser) : Except CompileError (ast.NetworkDecl × Parser) :=
  match p.expect Token.Network with
  | Except.error e => Except.error e
  | Except.ok (_, p0) =>
    match p0.next with
    | (some (Token.Identifier name), p1) =>
      (match p1.expect Token.Colon with
       | Except.error e => Except.error e
       | Except.ok (_, p2) => Except.ok (⟨name, [], []⟩, p2))
    | _ => Except.error (CompileError.Parse 1 1 "Expected network name")

/-- The section loop of `Parser::parse_module`, dispatching on the peeked
token; any token that starts no section breaks the loop (trailing tokens
are ignored by the parser). -/
def parseModuleLoop : Nat → ast.Module → Parser → Except CompileError (ast.Module × Parser)
  | 0, _, _ => Except.error (CompileError.Parse 0 0 "fuel exhausted")
  | fuel + 1, acc, p =>
    match p.peek with
    | some Token.Context =>
      (match (p.bump).expect Token.Colon with
       | Except.error e => Except.error e
       | Except.ok (_, p1) =>
         match p1.next with
         | (some (Token.String s), p2) =>
           parseModuleLoop fuel { acc with context := some s } p2
         | (_, p2) => parseModuleLoop fuel acc p2)
    | some Token.Signal =>
      (match p.parse_signal with
       | Except.error e => Except.error e
       | Except.ok (s, p1) =>
         parseModuleLoop fuel { acc with signals := acc.signals ++ [s] } p1)
    | some Token.Coil =>
      (match p.parse_coil with
       | Except.error e => Except.error e
       | Except.ok (c, p1) =>
         parseModuleLoop fuel { acc with coils := acc.coils ++ [c] } p1)
    | some Token.Rung =>
      (match p.parse_rung with
       | Except.error e => Except.error e
       | Except.ok (r, p1) =>
         parseModuleLoop fuel { acc with rungs := acc.rungs ++ [r] } p1)
    | some Token.Block =>
      (match p.parse_block with
       | Except.error e => Except.error e
       | Except.ok (b, p1) =>
         parseModuleLoop fuel { acc with blocks := acc.blocks ++ [b] } p1)
    | some Token.Network =>
      (match p.parse_network with
       | Except.error e => Except.error e
       | Except.ok (n, p1) =>
         parseModuleLoop fuel { acc with networks := acc.networks ++ [n] } p1)
    | _ => Except.ok (acc, p)

/-- `Parser::parse_module`: the `module <identifier>` header (intent and
constraints are initialized to `None` and never assigned by the loop),
then the section loop. -/
def Parser.parse_module (p : Parser) : Except CompileError (ast.Module × Parser) :=
  match p.expect Token.Module with
  | Except.error e => Except.error e
  | Except.ok (_, p0) =>
    match p0.next with
    | (some (Token.Identifier name), p1) =>
      parseModuleLoop (parserFuel p1) ⟨name, none, none, none, [], [], [], [], []⟩ p1
    | _ => Except.error (CompileError.Parse 1 1 "Expected module name")

/-- `parser::parse`: build a parser over the source and parse one
module. -/
def parse (source : String) : Except CompileError ast.Module :=
  match (Parser.new source).parse_module with
  | Except.error e => Except.error e
  | Except.ok (m, _) => Except.ok m

/-! ## Resolver (src/resolver.rs)

`SymbolTable` wraps three `HashMap`s; the resolver only calls
`contains_key` and `insert` on them, so they are modelled as association
lists (insertion conses a binding; lookup is key membership). -/

/-- `resolver::SymbolTable`. -/
structure SymbolTable where
  signals : List (String × ast.SignalDecl)
  coils : List (String × ast.CoilDecl)
  blocks : List (String × ast.BlockDecl)
deriving DecidableEq, Repr

/-- `SymbolTable::new`. -/
def SymbolTable.new : SymbolTable := ⟨[], [], []⟩

/-- `self.signals.contains_key(name)`. -/
def SymbolTable.containsSignal (t : SymbolTable) (name : String) : Bool :=
  t.signals.any (fun q => q.1 == name)

/-- `self.coils.contains_key(name)`. -/
def SymbolTable.containsCoil (t : SymbolTable) (name : String) : Bool :=
  t.coils.any (fun q => q.1 == name)

/-- `SymbolTable::add_signal`. -/
def SymbolTable.add_signal (t : SymbolTable) (signal : ast.SignalDecl) :
    Except CompileError SymbolTable :=
  if t.containsSignal signal.name then
    Except.error (CompileError.NameResolution ("Duplicate signal name: " ++ signal.name))
  else Except.ok ⟨(signal.name, signal) :: t.signals, t.coils, t.blocks⟩

/-- `SymbolTable::add_coil`. -/
def SymbolTable.add_coil (t : SymbolTable) (coil : ast.CoilDecl) :
    Except CompileError SymbolTable :=
  if t.containsCoil coil.name then
    Except.error (CompileError.NameResolution ("Duplicate coil name: " ++ coil.name))
  else Except.ok ⟨t.signals, (coil.name, coil) :: t.coils, t.blocks⟩

/-- `SymbolTable::resolve_signal`. -/
def SymbolTable.resolve_signal (t : SymbolTable) (name : String) :
    Except CompileError Unit :=
  if !(t.containsSignal name) then
    Except.error (CompileError.NameResolution ("Undefined signal: " ++ name))
  else Except.ok ()

/-- `SymbolTable::resolve_coil`. -/
def SymbolTable.resolve_coil (t : SymbolTable) (name : String) :
    Except CompileError Unit :=
  if !(t.containsCoil name) then
    Except.error (CompileError.NameResolution ("Undefined coil: " ++ name))
  else Except.ok ()

/-- The first declare-pass loop of `resolve_names`:
`for signal in &module.signals { symbols.add_signal(signal.clone())? }`. -/
def addSignalsLoop : SymbolTable → List ast.SignalDecl → Except CompileError SymbolTable
  | t, [] => Except.ok t
  | t, s :: rest =>
    match t.add_signal s with
    | Except.error e => Except.error e
    | Except.ok t' => addSignalsLoop t' rest

/-- The second declare-pass loop of `resolve_names`, over coils. -/
def addCoilsLoop : SymbolTable → List ast.CoilDecl → Except CompileError SymbolTable
  | t, [] => Except.ok t
  | t, c :: rest =>
    match t.add_coil c with
    | Except.error e => Except.error e
    | Except.ok t' => addCoilsLoop t' rest

/-- `resolver::resolve_guard`: depth-first, left-to-right walk resolving
every contact name against the signal table. -/
def resolve_guard (guard : ast.GuardExpr) (symbols : SymbolTable) :
    Except CompileError Unit :=
  match guard with
  | ast.GuardExpr.Contact name _ _ => symbols.resolve_signal name
  | ast.GuardExpr.And left right =>
    (match resolve_guard left symbols with
     | Except.error e => Except.error e
     | Except.ok _ => resolve_guard right symbols)
  | ast.GuardExpr.Or left right =>
    (match resolve_guard left symbols with
     | Except.error e => Except.error e
     | Except.ok _ => resolve_guard right symbols)
  | ast.GuardExpr.Not expr => resolve_guard expr symbols

/-- The per-rung action loop of `resolve_names`:
`for action in &rung.actions { symbols.resolve_coil(&action.coil)? }`. -/
def resolveActionsLoop (symbols : SymbolTable) : List ast.Action → Except CompileError Unit
  | [] => Except.ok ()
  | a :: rest =>
    match symbols.resolve_coil a.coil with
    | Except.error e => Except.error e
    | Except.ok _ => resolveActionsLoop symbols rest

/-- The reference-pass loop of `resolve_names` over rungs: the guard is
walked before the actions. -/
def resolveRungsLoop (symbols : SymbolTable) : List ast.RungDecl → Except CompileError Unit
  | [] => Except.ok ()
  | r :: rest =>
    match resolve_guard r.guard symbols with
    | Except.error e => Except.error e
    | Except.ok _ =>
      match resolveActionsLoop symbols r.actions with
      | Except.error e => Except.error e
      | Except.ok _ => resolveRungsLoop symbols rest

/-- `resolver::resolve_names`: declare pass (all signals, then all
coils), then reference pass (rungs in order). -/
def resolve_names (module : ast.Module) : Except CompileError Unit :=
  match addSignalsLoop SymbolTable.new module.signals with
  | Except.error e => Except.error e
  | Except.ok t1 =>
    match addCoilsLoop t1 module.coils with
    | Except.error e => Except.error e
    | Except.ok t2 => resolveRungsLoop t2 module.rungs

/-- State-passing rendering of the Rust signature
`fn resolve_names(module: &mut Module) -> Result<()>`: the final state of
the module reference alongside the result.  The body of `resolve_names`
contains no assignment through `module` (it only iterates over
`module.signals`, `module.coils` and `module.rungs`), so the translation
returns the module it was given in both the success and the error
branch. -/
def resolve_names_mut (module : ast.Module) : Except CompileError Unit × ast.Module :=
  match resolve_names module with
  | Except.error e => (Except.error e, module)
  | Except.ok _ => (Except.ok (), module)

/-! ## IR data model (`charta_core::ir::schema`)

The schema crate is outside this repository; the record shapes below are
those the emitter constructs (src/emitter.rs imports and builds exactly
these fields).  Per the spec's wire-format rules, an `Option` field that
is `none` is omitted from the serialized record and a `some` field is
present, so field presence in the emitted JSON is modelled by the
`Option` being `some`. -/

namespace ir

/-- `ir::schema::Intent` as constructed by `emit_intent`. -/
structure Intent where
  goal : Option String
deriving DecidableEq, Repr

/-- `ir::schema::DataPrivacy` as constructed by `emit_constraints`. -/
structure DataPrivacy where
  jurisdiction : Option String
  pii_handling : Option String
deriving DecidableEq, Repr

/-- `ir::schema::Quality` as constructed by `emit_constraints`. -/
structure Quality where
  min_precision : Option F64
  min_recall : Option F64
deriving DecidableEq, Repr

/-- `ir::schema::Cost` as constructed by `emit_constraints`. -/
structure Cost where
  max_cost_per_submission : Option String
deriving DecidableEq, Repr

/-- `ir::schema::Constraints` as constructed by `emit_constraints`. -/
structure Constraints where
  data_privacy : Option DataPrivacy
  quality : Option Quality
  cost : Option Cost
deriving DecidableEq, Repr

/-- `ir::schema::SignalDecl` as constructed by `emit_signal`. -/
structure SignalDecl where
  name : String
  parameters : Option (List String)
  type_ : Option String
deriving DecidableEq, Repr

/-- `ir::schema::CoilDecl` as constructed by `emit_coil`. -/
structure CoilDecl where
  name : String
  parameters : Option (List String)
  latching : Option Bool
  critical : Option Bool
deriving DecidableEq, Repr

/-- `ir::schema::Expr` as constructed by `emit_expr`. -/
inductive Expr where
  | String (s : String)
  | Number (n : F64)
  | Boolean (b : Bool)
  | Identifier (id : String)
deriving DecidableEq, Repr

/-- `ir::schema::GuardExpr` as constructed by `emit_guard` (the contact
type is lowered to the literal strings `"NO"`/`"NC"`). -/
inductive GuardExpr where
  | Contact (name : String) (contact_type : String) (arguments : Option (List Expr))
  | And (left : GuardExpr) (right : GuardExpr)
  | Or (left : GuardExpr) (right : GuardExpr)
  | Not (expr : GuardExpr)
deriving DecidableEq, Repr

/-- `ir::schema::Action` as constructed by `emit_action` (the action
type is lowered to a fixed lowercase string). -/
structure Action where
  action_type : String
  coil : String
  arguments : Option (List Expr)
deriving DecidableEq, Repr

/-- `ir::schema::RungDecl` as constructed by `emit_rung`. -/
structure RungDecl where
  name : String
  guard : GuardExpr
  actions : List Action
deriving DecidableEq, Repr

/-- `ir::schema::PortDecl` as constructed by `emit_block`. -/
structure PortDecl where
  name : String
  type_ : String
deriving DecidableEq, Repr

/-- `ir::schema::BlockDecl` as constructed by `emit_block` (only name,
port lists and effect are emitted). -/
structure BlockDecl where
  name : String
  inputs : Option (List PortDecl)
  outputs : Option (List PortDecl)
  effect : Option String
deriving DecidableEq, Repr

/-- `ir::schema::Wire` as constructed by `emit_network`. -/
structure Wire where
  source : String
  target : String
deriving DecidableEq, Repr

/-- `ir::schema::Output` as constructed by `emit_network`. -/
structure Output where
  name : String
  source : String
deriving DecidableEq, Repr

/-- `ir::schema::NetworkDecl` as constructed by `emit_network`. -/
structure NetworkDecl where
  name : String
  wires : Option (List Wire)
  outputs : Option (List Output)
deriving DecidableEq, Repr

/-- `ir::schema::Module` as constructed by `emit_module`. -/
structure Module where
  name : String
  context : Option String
  intent : Option Intent
  constraints : Option Constraints
  signals : Option (List SignalDecl)
  coils : Option (List CoilDecl)
  rungs : Option (List RungDecl)
  blocks : Option (List BlockDecl)
  networks : Option (List NetworkDecl)
deriving DecidableEq, Repr

/-- `ir::schema::IR`: the versioned document. -/
structure IR where
  version : String
  module : Module
deriving DecidableEq, Repr

end ir

/-! ## Emitter (src/emitter.rs) -/

/-- `emitter::emit_intent`. -/
def emit_intent (intent : ast.Intent) : ir.Intent := ⟨intent.goal⟩

/-- `emitter::emit_constraints`. -/
def emit_constraints (constraints : ast.Constraints) : ir.Constraints :=
  ⟨constraints.data_privacy.map (fun dp => ⟨dp.jurisdiction, dp.pii_handling⟩),
   constraints.quality.map (fun q => ⟨q.min_precision, q.min_recall⟩),
   constraints.cost.map (fun c => ⟨c.max_cost_per_submission⟩)⟩

/-- `emitter::emit_signal`: the parameter list is omitted (`none`) when
empty, otherwise present. -/
def emit_signal (signal : ast.SignalDecl) : ir.SignalDecl :=
  ⟨signal.name,
   if signal.parameters.isEmpty then none else some signal.parameters,
   signal.type_⟩

/-- `emitter::emit_coil`: the parameter list is omitted when empty. -/
def emit_coil (coil : ast.CoilDecl) : ir.CoilDecl :=
  ⟨coil.name,
   if coil.parameters.isEmpty then none else some coil.parameters,
   coil.latching, coil.critical⟩

/-- `emitter::emit_expr`. -/
def emit_expr (expr : ast.Expr) : ir.Expr :=
  match expr with
  | ast.Expr.String s => ir.Expr.String s
  | ast.Expr.Number n => ir.Expr.Number n
  | ast.Expr.Boolean b => ir.Expr.Boolean b
  | ast.Expr.Identifier id => ir.Expr.Identifier id

/-- `emitter::emit_guard`.  Note the `Contact` arm: the argument list is
always wrapped in `Some`, even when it is empty (unlike `emit_signal`,
`emit_coil` and `emit_action`, which map an empty list to `None`). -/
def emit_guard (guard : ast.GuardExpr) : Except CompileError ir.GuardExpr :=
  match guard with
  | ast.GuardExpr.Contact name contact_type arguments =>
    Except.ok (ir.GuardExpr.Contact name
      (match contact_type with
       | ast.ContactType.NO => "NO"
       | ast.ContactType.NC => "NC")
      (some (arguments.map emit_expr)))
  | ast.GuardExpr.And left right =>
    (match emit_guard left with
     | Except.error e => Except.error e
     | Except.ok l =>
       match emit_guard right with
       | Except.error e => Except.error e
       | Except.ok r => Except.ok (ir.GuardExpr.And l r))
  | ast.GuardExpr.Or left right =>
    (match emit_guard left with
     | Except.error e => Except.error e
     | Except.ok l =>
       match emit_guard right with
       | Except.error e => Except.error e
       | Except.ok r => Except.ok (ir.GuardExpr.Or l r))
  | ast.GuardExpr.Not expr =>
    (match emit_guard expr with
     | Except.error e => Except.error e
     | Except.ok x => Except.ok (ir.GuardExpr.Not x))

/-- `emitter::emit_action`: the argument list is omitted when empty; the
action type is lowered to its fixed string. -/
def emit_action (action : ast.Action) : ir.Action :=
  ⟨(match action.action_type with
    | ast.ActionType.Energise => "energise"
    | ast.ActionType.DeEnergise => "de_energise"
    | ast.ActionType.Escalate => "escalate"
    | ast.ActionType.Require => "require"),
   action.coil,
   if action.arguments.isEmpty then none
   else some (action.arguments.map emit_expr)⟩

/-- `emitter::emit_rung`. -/
def emit_rung (rung : ast.RungDecl) : Except CompileError ir.RungDecl :=
  match emit_guard rung.guard with
  | Except.error e => Except.error e
  | Except.ok g => Except.ok ⟨rung.name, g, rung.actions.map emit_action⟩

/-- `emitter::emit_block`: the port lists are always wrapped in `Some`;
internals and implementation are not emitted. -/
def emit_block (block : ast.BlockDecl) : ir.BlockDecl :=
  ⟨block.name,
   some (block.inputs.map (fun p => ⟨p.name, p.type_⟩)),
   some (block.outputs.map (fun p => ⟨p.name, p.type_⟩)),
   block.effect⟩

/-- `emitter::emit_network`: the wire and output lists are always
wrapped in `Some`. -/
def emit_network (network : ast.NetworkDecl) : ir.NetworkDecl :=
  ⟨network.name,
   some (network.wires.map (fun w => ⟨w.source, w.target⟩)),
   some (network.outputs.map (fun o => ⟨o.name, o.source⟩))⟩

/-- The `collect::<Result<Vec<_>>>` over `emit_rung` in `emit_module`. -/
def emitRungsLoop : List ast.RungDecl → Except CompileError (List ir.RungDecl)
  | [] => Except.ok []
  | r :: rest =>
    match emit_rung r with
    | Except.error e => Except.error e
    | Except.ok ir =>
      match emitRungsLoop rest with
      | Except.error e => Except.error e
      | Except.ok irs => Except.ok (ir :: irs)

/-- `emitter::emit_module`: the five top-level collections are always
wrapped in `Some`. -/
def emit_module (module : ast.Module) : Except CompileError ir.Module :=
  match emitRungsLoop module.rungs with
  | Except.error e => Except.error e
  | Except.ok rungs =>
    Except.ok
      ⟨module.name,
       module.context,
       module.intent.map emit_intent,
       module.constraints.map emit_constraints,
       some (module.signals.map emit_signal),
       some (module.coils.map emit_coil),
       some rungs,
       some (module.blocks.map emit_block),
       some (module.networks.map emit_network)⟩

/-- `emitter::emit_ir` up to the IR value.  The Rust function then hands
the value to `serde_json::to_string_pretty`, which lives outside this
repository; the serialized text is a function of the IR value, so the
embedding stops at the value. -/
def emit_ir (module : ast.Module) : Except CompileError ir.IR :=
  match emit_module module with
  | Except.error e => Except.error e
  | Except.ok m => Except.ok ⟨"0.1.0", m⟩

/-- The compilation pipeline as composed by the CLI entry point
(`compile_command`/`validate_command` in src/cli.rs): parse, resolve,
emit. -/
def compile (source : String) : Except CompileError ir.IR :=
  match parse source with
  | Except.error e => Except.error e
  | Except.ok m =>
    match resolve_names m with
    | Except.error e => Except.error e
    | Except.ok _ => emit_ir m

/-! ## Specification-side rendering of the resolver contract

The spec (§4.3) describes `resolve_names` as reporting the first
violation in a fixed order: duplicate signals in declaration order, then
duplicate coils, then undefined references in rung order, each rung's
guard walked depth-first left-to-right before its actions.  The
definitions below state that order directly, for comparison with the
implementation above. -/

/-- The declared signal names of a module, in declaration order. -/
def sigNames (m : ast.Module) : List String := m.signals.map (fun s => s.name)

/-- The declared coil names of a module, in declaration order. -/
def coilNames (m : ast.Module) : List String := m.coils.map (fun c => c.name)

/-- The signal-table keys of a symbol table. -/
def sigKeys (t : SymbolTable) : List String := t.signals.map Prod.fst

/-- The coil-table keys of a symbol table. -/
def coilKeys (t : SymbolTable) : List String := t.coils.map Prod.fst

/-- The first name in `names` (scanned left to right) that repeats an
earlier name or a name of `seen`. -/
def firstDupFrom (seen : List String) : List String → Option String
  | [] => none
  | n :: rest => if n ∈ seen then some n else firstDupFrom (n :: seen) rest

/-- A name-resolution violation, as classified by the spec. -/
inductive Violation where
  | dupSignal (name : String)
  | dupCoil (name : String)
  | undefSignal (name : String)
  | undefCoil (name : String)
deriving DecidableEq, Repr

/-- The identifier a violation is about. -/
def Violation.ident : Violation → String
  | Violation.dupSignal n => n
  | Violation.dupCoil n => n
  | Violation.undefSignal n => n
  | Violation.undefCoil n => n

/-- The `NameResolutionError` message reported for a violation. -/
def Violation.message : Violation → String
  | Violation.dupSignal n => "Duplicate signal name: " ++ n
  | Violation.dupCoil n => "Duplicate coil name: " ++ n
  | Violation.undefSignal n => "Undefined signal: " ++ n
  | Violation.undefCoil n => "Undefined coil: " ++ n

/-- The contact names of a guard in depth-first, left-to-right order. -/
def guardContacts : ast.GuardExpr → List String
  | ast.GuardExpr.Contact n _ _ => [n]
  | ast.GuardExpr.And l r => guardContacts l ++ guardContacts r
  | ast.GuardExpr.Or l r => guardContacts l ++ guardContacts r
  | ast.GuardExpr.Not e => guardContacts e

/-- The first contact name of a guard (depth-first, left-to-right) that
is not a declared signal. -/
def guardFirstUndef (sigs : List String) : ast.GuardExpr → Option String
  | ast.GuardExpr.Contact n _ _ => if n ∈ sigs then none else some n
  | ast.GuardExpr.And l r =>
    (match guardFirstUndef sigs l with
     | some n => some n
     | none => guardFirstUndef sigs r)
  | ast.GuardExpr.Or l r =>
    (match guardFirstUndef sigs l with
     | some n => some n
     | none => guardFirstUndef sigs r)
  | ast.GuardExpr.Not e => guardFirstUndef sigs e

/-- The first action (in order) whose target coil is not declared. -/
def actionsFirstUndef (coils : List String) : List ast.Action → Option String
  | [] => none
  | a :: rest => if a.coil ∈ coils then actionsFirstUndef coils rest else some a.coil

/-- The first undefined reference over the rungs, guard before actions
within each rung. -/
def rungsFirstViolation (sigs coils : List String) : List ast.RungDecl → Option Violation
  | [] => none
  | r :: rest =>
    match guardFirstUndef sigs r.guard with
    | some n => some (Violation.undefSignal n)
    | none =>
      match actionsFirstUndef coils r.actions with
      | some n => some (Violation.undefCoil n)
      | none => rungsFirstViolation sigs coils rest

/-- The first violation of a module in the spec's reporting order. -/
def firstViolation (m : ast.Module) : Option Violation :=
  match firstDupFrom [] (sigNames m) with
  | some n => some (Violation.dupSignal n)
  | none =>
    match firstDupFrom [] (coilNames m) with
    | some n => some (Violation.dupCoil n)
    | none => rungsFirstViolation (sigNames m) (coilNames m) m.rungs

/-- The resolver outcome the spec prescribes: success when no violation
exists, otherwise the first violation's error. -/
def firstViolationExcept (m : ast.Module) : Except CompileError Unit :=
  match firstViolation m with
  | none => Except.ok ()
  | some v => Except.error (CompileError.NameResolution v.message)

/-- The resolver-facing well-formedness of a module (§3 invariants):
unique signal names, unique coil names, every contact naming a declared
signal and every action targeting a declared coil. -/
def validModule (m : ast.Module) : Prop :=
  (sigNames m).Nodup ∧ (coilNames m).Nodup ∧
  ∀ r ∈ m.rungs,
    (∀ n ∈ guardContacts r.guard, n ∈ sigNames m) ∧
    (∀ a ∈ r.actions, a.coil ∈ coilNames m)

/-- The module with every rung renamed through `f` (guards and actions
untouched); used to state that rung names never influence resolution. -/
def renameRungs (f : String → String) (m : ast.Module) : ast.Module :=
  { m with rungs := m.rungs.map (fun r => { r with name := f r.name }) }

/-! Concrete inputs used by witnesses and counterexamples. -/

/-- A module with two signals named `dup`. -/
def exampleDupSignals : ast.Module :=
  ⟨"m", none, none, none, [⟨"dup", [], none⟩, ⟨"dup", [], none⟩], [], [], [], []⟩

/-- A module in which a signal and a coil share the name `shared`. -/
def exampleSharedName : ast.Module :=
  ⟨"m", none, none, none, [⟨"shared", [], none⟩], [⟨"shared", [], none, none⟩],
   [⟨"r", ast.GuardExpr.Contact "shared" ast.ContactType.NO [],
     [⟨ast.ActionType.Energise, "shared", []⟩]⟩], [], []⟩

/-- A module with two rungs that share the name `twin`. -/
def exampleTwinRungs : ast.Module :=
  ⟨"m", none, none, none, [⟨"s", [], none⟩], [⟨"c", [], none, none⟩],
   [⟨"twin", ast.GuardExpr.Contact "s" ast.ContactType.NO [],
     [⟨ast.ActionType.Energise, "c", []⟩]⟩,
    ⟨"twin", ast.GuardExpr.Contact "s" ast.ContactType.NO [],
     [⟨ast.ActionType.DeEnergise, "c", []⟩]⟩], [], []⟩

/-- Guard parsing from a source fragment, reduced to the parsed tree and
the number of consumed tokens: `Parser::parse_guard` on a fresh parser
over `s`. -/
def parseGuardText (s : String) : Except CompileError (ast.GuardExpr × Nat) :=
  match Parser.parse_guard (Parser.new s) with
  | Except.error e => Except.error e
  | Except.ok (g, p) => Except.ok (g, p.pos)

/-- The value `emit_guard` always succeeds with (its `Result` never
carries an error; see `emit_guard_eq_total`). -/
def emitGuardTotal : ast.GuardExpr → ir.GuardExpr
  | ast.GuardExpr.Contact name contact_type arguments =>
    ir.GuardExpr.Contact name
      (match contact_type with
       | ast.ContactType.NO => "NO"
       | ast.ContactType.NC => "NC")
      (some (arguments.map emit_expr))
  | ast.GuardExpr.And l r => ir.GuardExpr.And (emitGuardTotal l) (emitGuardTotal r)
  | ast.GuardExpr.Or l r => ir.GuardExpr.Or (emitGuardTotal l) (emitGuardTotal r)
  | ast.GuardExpr.Not e => ir.GuardExpr.Not (emitGuardTotal e)

/-- The value `emit_rung` always succeeds with. -/
def emitRungTotal (r : ast.RungDecl) : ir.RungDecl :=
  ⟨r.name, emitGuardTotal r.guard, r.actions.map emit_action⟩

/-- The scenario source of spec §8. -/
def demoSource : String :=
  "module demo\nsignal start\ncoil motor\nrung r1:\n  when NO start\n  then energise motor\n"

/-- The IR document the pipeline produces for `demoSource`. -/
def demoIR : ir.IR :=
  ⟨"0.1.0",
   ⟨"demo", none, none, none,
    some [⟨"start", none, none⟩],
    some [⟨"motor", none, none, none⟩],
    some [⟨"r1", ir.GuardExpr.Contact "start" "NO" (some []),
      [⟨"energise", "motor", none⟩]⟩],
    some [], some []⟩⟩

/-! ## Helper lemmas -/

theorem containsSignal_iff (t : SymbolTable) (n : String) :
    t.containsSignal n = true ↔ n ∈ sigKeys t := by
  simp [SymbolTable.containsSignal, sigKeys, List.any_eq_true, List.mem_map]

theorem containsCoil_iff (t : SymbolTable) (n : String) :
    t.containsCoil n = true ↔ n ∈ coilKeys t := by
  simp [SymbolTable.containsCoil, coilKeys, List.any_eq_true, List.mem_map]

theorem containsSignal_false (t : SymbolTable) (n : String) (h : n ∉ sigKeys t) :
    t.containsSignal n = false := by
  cases hb : t.containsSignal n with
  | false => rfl
  | true => exact absurd ((containsSignal_iff t n).mp hb) h

theorem containsCoil_false (t : SymbolTable) (n : String) (h : n ∉ coilKeys t) :
    t.containsCoil n = false := by
  cases hb : t.containsCoil n with
  | false => rfl
  | true => exact absurd ((containsCoil_iff t n).mp hb) h

theorem firstDupFrom_none_iff (ns : List String) : ∀ seen,
    firstDupFrom seen ns = none ↔ (ns.Nodup ∧ ∀ x ∈ ns, x ∉ seen) := by
  induction ns with
  | nil => intro seen; simp [firstDupFrom]
  | cons n rest ih =>
    intro seen
    simp only [firstDupFrom]
    by_cases h : n ∈ seen
    · rw [if_pos h]
      constructor
      · intro hc; exact absurd hc (by simp)
      · intro hc; exact absurd h (hc.2 n (List.mem_cons_self n rest))
    · rw [if_neg h, ih (n :: seen)]
      constructor
      · rintro ⟨hnd, hall⟩
        refine ⟨List.nodup_cons.mpr ⟨?_, hnd⟩, ?_⟩
        · intro hn
          exact (hall n hn) (List.mem_cons_self n seen)
        · intro x hx
          rcases List.mem_cons.mp hx with rfl | hx'
          · exact h
          · intro hxs
            exact (hall x hx') (List.mem_cons.mpr (Or.inr hxs))
      · rintro ⟨hnd, hall⟩
        have hn := List.nodup_cons.mp hnd
        refine ⟨hn.2, ?_⟩
        intro x hx hmem
        rcases List.mem_cons.mp hmem with rfl | hxs
        · exact hn.1 hx
        · exact (hall x (List.mem_cons.mpr (Or.inr hx))) hxs

theorem addSignalsLoop_err (sigs : List ast.SignalDecl) : ∀ (t : SymbolTable) (n : String),
    firstDupFrom (sigKeys t) (sigs.map (fun s => s.name)) = some n →
    addSignalsLoop t sigs =
      Except.error (CompileError.NameResolution ("Duplicate signal name: " ++ n)) := by
  induction sigs with
  | nil => intro t n h; simp [firstDupFrom] at h
  | cons s rest ih =>
    intro t n h
    simp only [List.map_cons, firstDupFrom] at h
    by_cases hc : s.name ∈ sigKeys t
    · rw [if_pos hc] at h
      injection h with h
      subst h
      simp [addSignalsLoop, SymbolTable.add_signal, (containsSignal_iff t s.name).mpr hc]
    · rw [if_neg hc] at h
      simp only [addSignalsLoop, SymbolTable.add_signal, containsSignal_false t s.name hc,
        Bool.false_eq_true, if_false]
      exact ih ⟨(s.name, s) :: t.signals, t.coils, t.blocks⟩ n (by simpa [sigKeys] using h)

theorem addSignalsLoop_ok (sigs : List ast.SignalDecl) : ∀ (t : SymbolTable),
    firstDupFrom (sigKeys t) (sigs.map (fun s => s.name)) = none →
    ∃ t', addSignalsLoop t sigs = Except.ok t'
      ∧ (∀ x, x ∈ sigKeys t' ↔ x ∈ sigs.map (fun s => s.name) ∨ x ∈ sigKeys t)
      ∧ t'.coils = t.coils ∧ t'.blocks = t.blocks := by
  induction sigs with
  | nil =>
    intro t _
    exact ⟨t, rfl, by simp, rfl, rfl⟩
  | cons s rest ih =>
    intro t h
    simp only [List.map_cons, firstDupFrom] at h
    by_cases hc : s.name ∈ sigKeys t
    · rw [if_pos hc] at h; exact absurd h (by simp)
    · rw [if_neg hc] at h
      obtain ⟨t', ht', hmem, hcoils, hblocks⟩ :=
        ih ⟨(s.name, s) :: t.signals, t.coils, t.blocks⟩ (by simpa [sigKeys] using h)
      refine ⟨t', ?_, ?_, hcoils, hblocks⟩
      · simp only [addSignalsLoop, SymbolTable.add_signal, containsSignal_false t s.name hc,
          Bool.false_eq_true, if_false]
        exact ht'
      · intro x
        rw [hmem x]
        simp [sigKeys, or_assoc, or_comm, or_left_comm]

theorem addCoilsLoop_err (coils : List ast.CoilDecl) : ∀ (t : SymbolTable) (n : String),
    firstDupFrom (coilKeys t) (coils.map (fun c => c.name)) = some n →
    addCoilsLoop t coils =
      Except.error (CompileError.NameResolution ("Duplicate coil name: " ++ n)) := by
  induction coils with
  | nil => intro t n h; simp [firstDupFrom] at h
  | cons c rest ih =>
    intro t n h
    simp only [List.map_cons, firstDupFrom] at h
    by_cases hc : c.name ∈ coilKeys t
    · rw [if_pos hc] at h
      injection h with h
      subst h
      simp [addCoilsLoop, SymbolTable.add_coil, (containsCoil_iff t c.name).mpr hc]
    · rw [if_neg hc] at h
      simp only [addCoilsLoop, SymbolTable.add_coil, containsCoil_false t c.name hc,
        Bool.false_eq_true, if_false]
      exact ih ⟨t.signals, (c.name, c) :: t.coils, t.blocks⟩ n (by simpa [coilKeys] using h)

theorem addCoilsLoop_ok (coils : List ast.CoilDecl) : ∀ (t : SymbolTable),
    firstDupFrom (coilKeys t) (coils.map (fun c => c.name)) = none →
    ∃ t', addCoilsLoop t coils = Except.ok t'
      ∧ (∀ x, x ∈ coilKeys t' ↔ x ∈ coils.map (fun c => c.name) ∨ x ∈ coilKeys t)
      ∧ t'.signals = t.signals ∧ t'.blocks = t.blocks := by
  induction coils with
  | nil =>
    intro t _
    exact ⟨t, rfl, by simp, rfl, rfl⟩
  | cons c rest ih =>
    intro t h
    simp only [List.map_cons, firstDupFrom] at h
    by_cases hc : c.name ∈ coilKeys t
    · rw [if_pos hc] at h; exact absurd h (by simp)
    · rw [if_neg hc] at h
      obtain ⟨t', ht', hmem, hsignals, hblocks⟩ :=
        ih ⟨t.signals, (c.name, c) :: t.coils, t.blocks⟩ (by simpa [coilKeys] using h)
      refine ⟨t', ?_, ?_, hsignals, hblocks⟩
      · simp only [addCoilsLoop, SymbolTable.add_coil, containsCoil_false t c.name hc,
          Bool.false_eq_true, if_false]
        exact ht'
      · intro x
        rw [hmem x]
        simp [coilKeys, or_assoc, or_comm, or_left_comm]

theorem resolve_guard_eq (t : SymbolTable) : ∀ g : ast.GuardExpr,
    resolve_guard g t =
      (match guardFirstUndef (sigKeys t) g with
       | none => Except.ok ()
       | some n => Except.error (CompileError.NameResolution ("Undefined signal: " ++ n))) := by
  intro g
  induction g with
  | Contact n ct args =>
    simp only [resolve_guard, guardFirstUndef, SymbolTable.resolve_signal]
    by_cases h : n ∈ sigKeys t
    · rw [if_pos h]
      simp [(containsSignal_iff t n).mpr h]
    · rw [if_neg h]
      simp [containsSignal_false t n h]
  | And l r ihl ihr =>
    simp only [resolve_guard, guardFirstUndef]
    rw [ihl, ihr]
    cases guardFirstUndef (sigKeys t) l <;> simp
  | Or l r ihl ihr =>
    simp only [resolve_guard, guardFirstUndef]
    rw [ihl, ihr]
    cases guardFirstUndef (sigKeys t) l <;> simp
  | Not e ih =>
    simp only [resolve_guard, guardFirstUndef]
    exact ih

theorem resolveActionsLoop_eq (t : SymbolTable) : ∀ as : List ast.Action,
    resolveActionsLoop t as =
      (match actionsFirstUndef (coilKeys t) as with
       | none => Except.ok ()
       | some n => Except.error (CompileError.NameResolution ("Undefined coil: " ++ n))) := by
  intro as
  induction as with
  | nil => rfl
  | cons a rest ih =>
    simp only [resolveActionsLoop, actionsFirstUndef, SymbolTable.resolve_coil]
    by_cases h : a.coil ∈ coilKeys t
    · rw [if_pos h]
      simp [(containsCoil_iff t a.coil).mpr h, ih]
    · rw [if_neg h]
      simp [containsCoil_false t a.coil h]

theorem resolveRungsLoop_eq (t : SymbolTable) : ∀ rs : List ast.RungDecl,
    resolveRungsLoop t rs =
      (match rungsFirstViolation (sigKeys t) (coilKeys t) rs with
       | none => Except.ok ()
       | some v => Except.error (CompileError.NameResolution v.message)) := by
  intro rs
  induction rs with
  | nil => rfl
  | cons r rest ih =>
    simp only [resolveRungsLoop, rungsFirstViolation]
    rw [resolve_guard_eq t r.guard]
    cases guardFirstUndef (sigKeys t) r.guard with
    | some n => simp [Violation.message]
    | none =>
      simp only
      rw [resolveActionsLoop_eq t r.actions]
      cases actionsFirstUndef (coilKeys t) r.actions with
      | some n => simp [Violation.message]
      | none => simpa using ih

theorem guardFirstUndef_congr (s1 s2 : List String) (h : ∀ x, x ∈ s1 ↔ x ∈ s2) :
    ∀ g, guardFirstUndef s1 g = guardFirstUndef s2 g := by
  intro g
  induction g with
  | Contact n ct args => simp only [guardFirstUndef]; rw [if_congr (h n) rfl rfl]
  | And l r ihl ihr => simp only [guardFirstUndef]; rw [ihl, ihr]
  | Or l r ihl ihr => simp only [guardFirstUndef]; rw [ihl, ihr]
  | Not e ih => simpa only [guardFirstUndef] using ih

theorem actionsFirstUndef_congr (c1 c2 : List String) (h : ∀ x, x ∈ c1 ↔ x ∈ c2) :
    ∀ as, actionsFirstUndef c1 as = actionsFirstUndef c2 as := by
  intro as
  induction as with
  | nil => rfl
  | cons a rest ih => simp only [actionsFirstUndef]; rw [if_congr (h a.coil) ih rfl]

theorem rungsFirstViolation_congr (s1 s2 c1 c2 : List String)
    (hs : ∀ x, x ∈ s1 ↔ x ∈ s2) (hc : ∀ x, x ∈ c1 ↔ x ∈ c2) :
    ∀ rs, rungsFirstViolation s1 c1 rs = rungsFirstViolation s2 c2 rs := by
  intro rs
  induction rs with
  | nil => rfl
  | cons r rest ih =>
    simp only [rungsFirstViolation]
    rw [guardFirstUndef_congr s1 s2 hs r.guard, actionsFirstUndef_congr c1 c2 hc r.actions, ih]

theorem resolve_names_eq_spec (m : ast.Module) :
    resolve_names m = firstViolationExcept m := by
  have hkeysNew : sigKeys SymbolTable.new = [] := rfl
  unfold resolve_names firstViolationExcept firstViolation
  cases hs : firstDupFrom [] (sigNames m) with
  | some n =>
    have h1 := addSignalsLoop_err m.signals SymbolTable.new n
      (by simpa [sigNames, hkeysNew] using hs)
    simp only [h1, Violation.message]
  | none =>
    obtain ⟨t1, ht1, hmem1, hcoils1, _⟩ :=
      addSignalsLoop_ok m.signals SymbolTable.new (by simpa [sigNames, hkeysNew] using hs)
    have hck1 : coilKeys t1 = [] := by simp [coilKeys, hcoils1, SymbolTable.new]
    cases hcs : firstDupFrom [] (coilNames m) with
    | some n =>
      have h2 := addCoilsLoop_err m.coils t1 n (by simpa [coilNames, hck1] using hcs)
      simp only [ht1, h2, Violation.message]
    | none =>
      obtain ⟨t2, ht2, hmem2, hsignals2, _⟩ :=
        addCoilsLoop_ok m.coils t1 (by simpa [coilNames, hck1] using hcs)
      simp only [ht1, ht2, resolveRungsLoop_eq t2 m.rungs]
      rw [rungsFirstViolation_congr (sigKeys t2) (sigNames m) (coilKeys t2) (coilNames m)
        ?_ ?_ m.rungs]
      · intro x
        have hsk : sigKeys t2 = sigKeys t1 := by simp [sigKeys, hsignals2]
        rw [hsk, hmem1 x]
        simp [sigNames, hkeysNew]
      · intro x
        rw [hmem2 x]
        simp [coilNames, hck1]

theorem guardFirstUndef_none_iff (sigs : List String) : ∀ g : ast.GuardExpr,
    guardFirstUndef sigs g = none ↔ ∀ n ∈ guardContacts g, n ∈ sigs := by
  intro g
  induction g with
  | Contact n ct args =>
    simp only [guardFirstUndef, guardContacts]
    by_cases h : n ∈ sigs
    · simp [h]
    · simp [h]
  | And l r ihl ihr =>
    simp only [guardFirstUndef, guardContacts]
    cases hl : guardFirstUndef sigs l with
    | some n =>
      simp only
      constructor
      · intro hc; exact absurd hc (by simp)
      · intro hall
        rw [ihl.mpr (fun x hx => hall x (List.mem_append.mpr (Or.inl hx)))] at hl
        exact absurd hl (by simp)
    | none =>
      simp only [ihr]
      constructor
      · intro hall n hn
        rcases List.mem_append.mp hn with hn' | hn'
        · exact (ihl.mp hl) n hn'
        · exact hall n hn'
      · intro hall n hn
        exact hall n (List.mem_append.mpr (Or.inr hn))
  | Or l r ihl ihr =>
    simp only [guardFirstUndef, guardContacts]
    cases hl : guardFirstUndef sigs l with
    | some n =>
      simp only
      constructor
      · intro hc; exact absurd hc (by simp)
      · intro hall
        rw [ihl.mpr (fun x hx => hall x (List.mem_append.mpr (Or.inl hx)))] at hl
        exact absurd hl (by simp)
    | none =>
      simp only [ihr]
      constructor
      · intro hall n hn
        rcases List.mem_append.mp hn with hn' | hn'
        · exact (ihl.mp hl) n hn'
        · exact hall n hn'
      · intro hall n hn
        exact hall n (List.mem_append.mpr (Or.inr hn))
  | Not e ih =>
    simpa only [guardFirstUndef, guardContacts] using ih

theorem actionsFirstUndef_none_iff (coils : List String) : ∀ as : List ast.Action,
    actionsFirstUndef coils as = none ↔ ∀ a ∈ as, a.coil ∈ coils := by
  intro as
  induction as with
  | nil => simp [actionsFirstUndef]
  | cons a rest ih =>
    simp only [actionsFirstUndef]
    by_cases h : a.coil ∈ coils
    · rw [if_pos h, ih]
      constructor
      · intro hall x hx
        rcases List.mem_cons.mp hx with rfl | hx'
        · exact h
        · exact hall x hx'
      · intro hall x hx
        exact hall x (List.mem_cons.mpr (Or.inr hx))
    · rw [if_neg h]
      constructor
      · intro hc; exact absurd hc (by simp)
      · intro hall
        exact absurd (hall a (List.mem_cons_self a rest)) h

theorem rungsFirstViolation_none_iff (sigs coils : List String) : ∀ rs : List ast.RungDecl,
    rungsFirstViolation sigs coils rs = none ↔
      ∀ r ∈ rs, (∀ n ∈ guardContacts r.guard, n ∈ sigs) ∧ (∀ a ∈ r.actions, a.coil ∈ coils) := by
  intro rs
  induction rs with
  | nil => simp [rungsFirstViolation]
  | cons r0 rest ih =>
    simp only [rungsFirstViolation]
    cases hg : guardFirstUndef sigs r0.guard with
    | some n =>
      simp only
      constructor
      · intro hc; exact absurd hc (by simp)
      · intro hall
        rw [(guardFirstUndef_none_iff sigs r0.guard).mpr
          (hall r0 (List.mem_cons_self r0 rest)).1] at hg
        exact absurd hg (by simp)
    | none =>
      cases ha : actionsFirstUndef coils r0.actions with
      | some n =>
        simp only
        constructor
        · intro hc; exact absurd hc (by simp)
        · intro hall
          rw [(actionsFirstUndef_none_iff coils r0.actions).mpr
            (hall r0 (List.mem_cons_self r0 rest)).2] at ha
          exact absurd ha (by simp)
      | none =>
        simp only [ih]
        constructor
        · intro hall x hx
          rcases List.mem_cons.mp hx with rfl | hx'
          · exact ⟨(guardFirstUndef_none_iff sigs x.guard).mp hg,
              (actionsFirstUndef_none_iff coils x.actions).mp ha⟩
          · exact hall x hx'
        · intro hall x hx
          exact hall x (List.mem_cons.mpr (Or.inr hx))

theorem firstViolation_none_iff (m : ast.Module) :
    firstViolation m = none ↔ validModule m := by
  unfold firstViolation validModule
  cases hs : firstDupFrom [] (sigNames m) with
  | some n =>
    simp only
    constructor
    · intro hc; exact absurd hc (by simp)
    · rintro ⟨hnd, _⟩
      rw [(firstDupFrom_none_iff (sigNames m) []).mpr ⟨hnd, by simp⟩] at hs
      exact absurd hs (by simp)
  | none =>
    have hsig := ((firstDupFrom_none_iff (sigNames m) []).mp hs).1
    cases hcs : firstDupFrom [] (coilNames m) with
    | some n =>
      simp only
      constructor
      · intro hc; exact absurd hc (by simp)
      · rintro ⟨_, hnd, _⟩
        rw [(firstDupFrom_none_iff (coilNames m) []).mpr ⟨hnd, by simp⟩] at hcs
        exact absurd hcs (by simp)
    | none =>
      have hcoil := ((firstDupFrom_none_iff (coilNames m) []).mp hcs).1
      simp only [rungsFirstViolation_none_iff (sigNames m) (coilNames m) m.rungs]
      constructor
      · intro hall
        exact ⟨hsig, hcoil, hall⟩
      · rintro ⟨_, _, hall⟩
        exact hall

theorem violation_message_ident (v : Violation) : ∃ p, v.message = p ++ v.ident := by
  cases v with
  | dupSignal n => exact ⟨"Duplicate signal name: ", rfl⟩
  | dupCoil n => exact ⟨"Duplicate coil name: ", rfl⟩
  | undefSignal n => exact ⟨"Undefined signal: ", rfl⟩
  | undefCoil n => exact ⟨"Undefined coil: ", rfl⟩

theorem emit_guard_eq_total : ∀ g : ast.GuardExpr,
    emit_guard g = Except.ok (emitGuardTotal g) := by
  intro g
  induction g with
  | Contact n ct args => rfl
  | And l r ihl ihr => simp only [emit_guard, emitGuardTotal, ihl, ihr]
  | Or l r ihl ihr => simp only [emit_guard, emitGuardTotal, ihl, ihr]
  | Not e ih => simp only [emit_guard, emitGuardTotal, ih]

theorem emit_rung_eq_total (r : ast.RungDecl) :
    emit_rung r = Except.ok (emitRungTotal r) := by
  simp only [emit_rung, emit_guard_eq_total r.guard, emitRungTotal]

theorem emitRungsLoop_eq : ∀ rs : List ast.RungDecl,
    emitRungsLoop rs = Except.ok (rs.map emitRungTotal) := by
  intro rs
  induction rs with
  | nil => rfl
  | cons r rest ih => simp only [emitRungsLoop, emit_rung_eq_total r, ih, List.map_cons]

theorem getElem?_of_drop_cons {α : Type} (l : List α) (i : Nat) (x : α) (rest : List α)
    (h : l.drop i = x :: rest) : l[i]? = some x := by
  have h0 : (l.drop i)[0]? = some x := by rw [h]; simp
  rw [List.getElem?_drop] at h0
  simpa using h0

theorem drop_succ_of_drop_cons {α : Type} (l : List α) (i : Nat) (x : α) (rest : List α)
    (h : l.drop i = x :: rest) : l.drop (i + 1) = rest := by
  have h1 : (l.drop i).drop 1 = l.drop (i + 1) := List.drop_drop 1 i l
  rw [h] at h1
  simpa using h1.symm

theorem getElem?_head?_of_drop {α : Type} (l : List α) (i : Nat) (rest : List α)
    (h : l.drop i = rest) : l[i]? = rest.head? := by
  have h0 : (l.drop i)[0]? = rest.head? := by rw [h]; cases rest <;> simp
  rw [List.getElem?_drop] at h0
  simpa using h0

/-! ## Claim theorems -/

/-- C1 counterexample: the claim asserts that a contact with no
arguments is emitted with no arguments field, but `emit_guard` emits a
present empty list (`some []`), not an absent field (`none`). -/
theorem contact_arguments_cex :
    emit_guard (ast.GuardExpr.Contact "probe" ast.ContactType.NO []) =
      Except.ok (ir.GuardExpr.Contact "probe" "NO" (some []))
    ∧ emit_guard (ast.GuardExpr.Contact "probe" ast.ContactType.NO []) ≠
      Except.ok (ir.GuardExpr.Contact "probe" "NO" none) := by
  exact ⟨rfl, by decide⟩

/-- C1 (amended): the emitter omits a signal's or coil's parameter list
and an action's argument list exactly when they are empty, but a
contact's argument list is always emitted as a present list — empty when
the contact has no arguments. -/
theorem nested_optional_field_omission (s : ast.SignalDecl) (c : ast.CoilDecl)
    (a : ast.Action) (n : String) (args : List ast.Expr) :
    ((emit_signal s).parameters = none ↔ s.parameters = [])
    ∧ ((emit_coil c).parameters = none ↔ c.parameters = [])
    ∧ ((emit_action a).arguments = none ↔ a.arguments = [])
    ∧ emit_guard (ast.GuardExpr.Contact n ast.ContactType.NO args) =
        Except.ok (ir.GuardExpr.Contact n "NO" (some (args.map emit_expr)))
    ∧ emit_guard (ast.GuardExpr.Contact n ast.ContactType.NC args) =
        Except.ok (ir.GuardExpr.Contact n "NC" (some (args.map emit_expr))) := by
  refine ⟨?_, ?_, ?_, rfl, rfl⟩
  · cases hp : s.parameters <;> simp [emit_signal, hp]
  · cases hp : c.parameters <;> simp [emit_coil, hp]
  · cases ha : a.arguments <;> simp [emit_action, ha]

/-- C2: contrary to the claim (and to the body of `parse_block` /
`parse_network`, which construct empty-bodied declarations), a module
containing a `block <identifier> :` or `network <identifier> :` header is
rejected: the compatibility table of `expect` has no `Block` or
`Network` arm, so `expect(Token::Block)` fails on the very `Block` token
it consumed.  Evaluations at the failing inputs, both through the full
parser and directly on the header tokens. -/
theorem block_network_header_rejected :
    parse "module m\nblock b :" =
      Except.error (CompileError.Parse 1 8 "Expected Block, found Block")
    ∧ parse "module m\nnetwork w :" =
      Except.error (CompileError.Parse 1 8 "Expected Network, found Network")
    ∧ Parser.parse_block ⟨[(Token.Block, 1, 1), (Token.Identifier "b", 1, 7),
        (Token.Colon, 1, 9)], 0⟩ =
      Except.error (CompileError.Parse 1 1 "Expected Block, found Block")
    ∧ Parser.parse_network ⟨[(Token.Network, 1, 1), (Token.Identifier "w", 1, 9),
        (Token.Colon, 1, 11)], 0⟩ =
      Except.error (CompileError.Parse 1 1 "Expected Network, found Network") := by
  exact ⟨rfl, rfl, rfl, rfl⟩

/-- C3: the guard grammar parses `OR` below `AND` below `NOT` below
primaries, and `OR`/`AND` chains fold pairwise left-to-right: the three
example inputs of the claim produce exactly the claimed trees, and an
`OR` chain associates to the left.  (Each pair is the parsed tree and
the number of tokens consumed.) -/
theorem guard_precedence_examples :
    parseGuardText "NO a OR NO b AND NO c" =
      Except.ok (ast.GuardExpr.Or (ast.GuardExpr.Contact "a" ast.ContactType.NO [])
        (ast.GuardExpr.And (ast.GuardExpr.Contact "b" ast.ContactType.NO [])
          (ast.GuardExpr.Contact "c" ast.ContactType.NO [])), 8)
    ∧ parseGuardText "NOT a AND b" =
      Except.ok (ast.GuardExpr.And
        (ast.GuardExpr.Not (ast.GuardExpr.Contact "a" ast.ContactType.NO []))
        (ast.GuardExpr.Contact "b" ast.ContactType.NO []), 4)
    ∧ parseGuardText "NOT (a AND b)" =
      Except.ok (ast.GuardExpr.Not
        (ast.GuardExpr.And (ast.GuardExpr.Contact "a" ast.ContactType.NO [])
          (ast.GuardExpr.Contact "b" ast.ContactType.NO [])), 6)
    ∧ parseGuardText "a OR b OR c" =
      Except.ok (ast.GuardExpr.Or
        (ast.GuardExpr.Or (ast.GuardExpr.Contact "a" ast.ContactType.NO [])
          (ast.GuardExpr.Contact "b" ast.ContactType.NO []))
        (ast.GuardExpr.Contact "c" ast.ContactType.NO []), 5) := by
  exact ⟨rfl, rfl, rfl, rfl⟩

/-- C4: the resolver returns success exactly on modules satisfying the
four §3 invariants, and otherwise fails with the `NameResolutionError`
of the first violation in the spec's order — duplicate signals in
declaration order, then duplicate coils, then undefined references in
rung order with each guard walked depth-first left-to-right before its
actions (`firstViolation` states that order) — whose message carries the
offending identifier as a suffix. -/
theorem resolve_names_first_violation (m : ast.Module) :
    resolve_names m = firstViolationExcept m
    ∧ (resolve_names m = Except.ok () ↔ validModule m)
    ∧ (∀ v, firstViolation m = some v →
        resolve_names m = Except.error (CompileError.NameResolution v.message)
        ∧ ∃ p, v.message = p ++ v.ident) := by
  refine ⟨resolve_names_eq_spec m, ?_, ?_⟩
  · rw [resolve_names_eq_spec m]
    unfold firstViolationExcept
    cases hv : firstViolation m with
    | none => simpa [hv] using (firstViolation_none_iff m).mp hv
    | some v =>
      simp only
      constructor
      · intro hc; exact absurd hc (by simp)
      · intro hvalid
        rw [(firstViolation_none_iff m).mpr hvalid] at hv
        exact absurd hv (by simp)
  · intro v hv
    refine ⟨?_, violation_message_ident v⟩
    rw [resolve_names_eq_spec m]
    unfold firstViolationExcept
    rw [hv]

/-- Witness for C4 at a concrete module with a duplicated signal name. -/
theorem resolve_names_first_violation_w :
    resolve_names exampleDupSignals =
      Except.error (CompileError.NameResolution "Duplicate signal name: dup")
    ∧ (∃ p, (Violation.dupSignal "dup").message = p ++ (Violation.dupSignal "dup").ident) := by
  have h := (resolve_names_first_violation exampleDupSignals).2.2
    (Violation.dupSignal "dup") (by rfl)
  exact ⟨h.1.trans (by decide), h.2⟩

/-- C5: two signal declarations (or two coil declarations) sharing a
name fail resolution with an error naming that identifier, while a
signal and a coil may share one name: in an otherwise valid module the
resolver succeeds. -/
theorem duplicate_names_by_namespace (m : ast.Module) :
    (∀ n, firstDupFrom [] (sigNames m) = some n →
      resolve_names m = Except.error
        (CompileError.NameResolution ("Duplicate signal name: " ++ n)))
    ∧ (∀ n, firstDupFrom [] (sigNames m) = none →
        firstDupFrom [] (coilNames m) = some n →
      resolve_names m = Except.error
        (CompileError.NameResolution ("Duplicate coil name: " ++ n)))
    ∧ (∀ n, validModule m → n ∈ sigNames m → n ∈ coilNames m →
        resolve_names m = Except.ok ()) := by
  refine ⟨?_, ?_, ?_⟩
  · intro n h
    rw [resolve_names_eq_spec m]
    unfold firstViolationExcept firstViolation
    rw [h]
    rfl
  · intro n hs hc
    rw [resolve_names_eq_spec m]
    unfold firstViolationExcept firstViolation
    rw [hs, hc]
    rfl
  · intro n hvalid _ _
    rw [resolve_names_eq_spec m]
    unfold firstViolationExcept
    rw [(firstViolation_none_iff m).mpr hvalid]

/-- Witness for C5: the duplicate-signal module fails naming `dup`; the
module where signal and coil both are named `shared` resolves. -/
theorem duplicate_names_by_namespace_w :
    resolve_names exampleDupSignals =
      Except.error (CompileError.NameResolution "Duplicate signal name: dup")
    ∧ resolve_names exampleSharedName = Except.ok () := by
  constructor
  · exact ((duplicate_names_by_namespace exampleDupSignals).1 "dup" (by rfl)).trans (by decide)
  · exact (duplicate_names_by_namespace exampleSharedName).2.2 "shared"
      (by unfold validModule; decide) (by decide) (by decide)

/-- C6: in the embedding every stage is a pure function, so emission of
one AST and the whole pipeline are deterministic: equal ASTs emit equal
IR documents (hence byte-identical serialized text, the text being a
function of the document), equal source texts compile to equal results,
and the §8 scenario compiles to its fixed IR document. -/
theorem pipeline_deterministic :
    (∀ m : ast.Module, emit_ir m = emit_ir m)
    ∧ (∀ s t : String, s = t → compile s = compile t)
    ∧ compile demoSource = Except.ok demoIR := by
  exact ⟨fun _ => rfl, fun s t h => h ▸ rfl, rfl⟩

/-- Witness for C6 at a concrete source text. -/
theorem pipeline_deterministic_w : compile demoSource = compile demoSource :=
  pipeline_deterministic.2.1 demoSource demoSource rfl

/-- C7 counterexample: the claim asserts that a bare identifier may
carry a parenthesized argument list and that `a(x)` parses like
`NO a(x)`; in fact the bare branch of `parse_guard_primary` parses no
arguments, so `a(x)` yields an argument-free contact after one token
while `NO a(x)` yields a contact with argument `x` after five. -/
theorem bare_identifier_args_cex :
    parseGuardText "a(x)" =
      Except.ok (ast.GuardExpr.Contact "a" ast.ContactType.NO [], 1)
    ∧ parseGuardText "NO a(x)" =
      Except.ok (ast.GuardExpr.Contact "a" ast.ContactType.NO
        [ast.Expr.Identifier "x"], 5)
    ∧ ast.GuardExpr.Contact "a" ast.ContactType.NO [] ≠
      ast.GuardExpr.Contact "a" ast.ContactType.NO [ast.Expr.Identifier "x"] := by
  exact ⟨rfl, rfl, by decide⟩

/-- C7 (amended): a bare identifier primary parses to the same guard
tree as an explicit `NO` contact without an argument list — a `NO`
contact on the same name not followed by `(` — namely
`Contact(name, NO, [])`; but the bare-identifier production accepts no
argument list, so `a(x)` leaves `(x)` unconsumed rather than parsing
like `NO a(x)`. -/
theorem bare_identifier_sugar (fuel : Nat) (st : Parser) (n : String)
    (l1 c1 l2 c2 : Nat) (rest : List (Token × Nat × Nat)) :
    (st.tokens.drop st.pos = (Token.Identifier n, l1, c1) :: rest →
      parseGuardPrimary (fuel + 1) st =
        Except.ok (ast.GuardExpr.Contact n ast.ContactType.NO [], ⟨st.tokens, st.pos + 1⟩))
    ∧ (st.tokens.drop st.pos =
        (Token.NO, l1, c1) :: (Token.Identifier n, l2, c2) :: rest →
       rest.head?.map (fun q => q.1) ≠ some Token.LParen →
      parseGuardPrimary (fuel + 1) st =
        Except.ok (ast.GuardExpr.Contact n ast.ContactType.NO [], ⟨st.tokens, st.pos + 2⟩)) := by
  constructor
  · intro h
    have hget := getElem?_of_drop_cons st.tokens st.pos _ rest h
    simp [parseGuardPrimary, Parser.peek, Parser.next, hget]
  · intro h hnp
    have hget0 := getElem?_of_drop_cons st.tokens st.pos _ _ h
    have hdrop1 := drop_succ_of_drop_cons st.tokens st.pos _ _ h
    have hget1 := getElem?_of_drop_cons st.tokens (st.pos + 1) _ rest hdrop1
    have hdrop2 := drop_succ_of_drop_cons st.tokens (st.pos + 1) _ rest hdrop1
    have hget2 := getElem?_head?_of_drop st.tokens (st.pos + 1 + 1) rest hdrop2
    simp [parseGuardPrimary, Parser.peek, Parser.next, Parser.bump, hget0, hget1, hget2, hnp]

/-- Witness for C7 at concrete parser states: a bare `s` and `NO s`. -/
theorem bare_identifier_sugar_w :
    parseGuardPrimary 1 ⟨[(Token.Identifier "s", 1, 1)], 0⟩ =
      Except.ok (ast.GuardExpr.Contact "s" ast.ContactType.NO [],
        ⟨[(Token.Identifier "s", 1, 1)], 1⟩)
    ∧ parseGuardPrimary 1 ⟨[(Token.NO, 1, 1), (Token.Identifier "s", 1, 4)], 0⟩ =
      Except.ok (ast.GuardExpr.Contact "s" ast.ContactType.NO [],
        ⟨[(Token.NO, 1, 1), (Token.Identifier "s", 1, 4)], 2⟩) := by
  constructor
  · exact (bare_identifier_sugar 0 ⟨[(Token.Identifier "s", 1, 1)], 0⟩ "s"
      1 1 0 0 []).1 (by rfl)
  · exact (bare_identifier_sugar 0 ⟨[(Token.NO, 1, 1), (Token.Identifier "s", 1, 4)], 0⟩ "s"
      1 1 1 4 []).2 (by rfl) (by decide)

/-- C8: for every AST, `emit_module` succeeds and emits all five
top-level collections as present (`some`) lists, each the elementwise
image of the corresponding declaration list in declaration order (no
sorting, no deduplication). -/
theorem emit_module_collections_present (m : ast.Module) :
    emit_module m = Except.ok
      ⟨m.name, m.context, m.intent.map emit_intent, m.constraints.map emit_constraints,
       some (m.signals.map emit_signal), some (m.coils.map emit_coil),
       some (m.rungs.map emitRungTotal), some (m.blocks.map emit_block),
       some (m.networks.map emit_network)⟩ := by
  unfold emit_module
  rw [emitRungsLoop_eq m.rungs]

/-- C9: the state-passing rendering of `resolve_names(&mut Module)`
returns the module unchanged whether resolution succeeds or fails: the
body never writes through the reference. -/
theorem resolve_names_no_mutation (m : ast.Module) :
    (resolve_names_mut m).2 = m := by
  unfold resolve_names_mut
  cases resolve_names m <;> rfl

/-- C10: rung names are never consulted: resolution succeeds exactly on
the four §3 conditions (none of which mentions rung names), and renaming
every rung — in particular into duplicate names — leaves the resolver's
result unchanged. -/
theorem rung_names_never_checked (m : ast.Module) :
    (resolve_names m = Except.ok () ↔ validModule m)
    ∧ (∀ f, resolve_names (renameRungs f m) = resolve_names m) := by
  constructor
  · rw [resolve_names_eq_spec m]
    unfold firstViolationExcept
    cases hv : firstViolation m with
    | none => simpa [hv] using (firstViolation_none_iff m).mp hv
    | some v =>
      simp only
      constructor
      · intro hc; exact absurd hc (by simp)
      · intro hvalid
        rw [(firstViolation_none_iff m).mpr hvalid] at hv
        exact absurd hv (by simp)
  · intro f
    rw [resolve_names_eq_spec m, resolve_names_eq_spec (renameRungs f m)]
    unfold firstViolationExcept firstViolation
    have hsig : sigNames (renameRungs f m) = sigNames m := rfl
    have hcoil : coilNames (renameRungs f m) = coilNames m := rfl
    have hrungs : ∀ rs : List ast.RungDecl,
        rungsFirstViolation (sigNames m) (coilNames m)
          (rs.map (fun r => { r with name := f r.name })) =
        rungsFirstViolation (sigNames m) (coilNames m) rs := by
      intro rs
      induction rs with
      | nil => rfl
      | cons r rest ih => simp only [List.map_cons, rungsFirstViolation, ih]
    rw [hsig, hcoil]
    show (match
        match firstDupFrom [] (sigNames m) with
        | some n => some (Violation.dupSignal n)
        | none =>
          match firstDupFrom [] (coilNames m) with
          | some n => some (Violation.dupCoil n)
          | none => rungsFirstViolation (sigNames m) (coilNames m) (renameRungs f m).rungs with
      | none => Except.ok ()
      | some v => Except.error (CompileError.NameResolution v.message)) = _
    rw [show (renameRungs f m).rungs = m.rungs.map (fun r => { r with name := f r.name }) from rfl,
      hrungs m.rungs]

end Charta
